import Mathlib

/-!
Shallow embedding of the daily-digest application:

* the client state machine of src/app/page.tsx (date cursor, digest cache,
  digest fetcher, available-dates fetcher, tab controller), and
* the server-side proxy route (src/unnamed/part_002, with src/unnamed/part_001
  as the hard-coded-URL variant).

JavaScript values are modelled as follows: `number` indices are `Int` where
JS can produce `-1` (Array.prototype.indexOf) and `Nat` elsewhere;
JS objects used as string-keyed maps are association lists in key-insertion
order (Object.keys order); the component's `currentDate` field, a JS `Date`
constructed from a `YYYY-MM-DD` string by `parseAPIDateStringToUTCDate` and
read back by `formatDateForAPI`, is tracked by that string itself.
-/

/-- An article as received from the digest API (src/app/page.tsx, `Article`):
subject, summary and an optional list of source links. -/
structure Article where
  subject : String
  summary : String
  links : Option (List String)
deriving DecidableEq, Repr

/-- `ArticlesByCountry` (src/app/page.tsx): a JS object mapping category codes
to article lists, modelled as an association list in key-insertion order. -/
abbrev ArticlesByCountry := List (String × List Article)

/-- `DigestDataType = [ArticlesByCountry[]]` (src/app/page.tsx): the external
API's double-wrapped shape — an outer array (normally a single element) of
arrays of `ArticlesByCountry` buckets. -/
abbrev DigestDataType := List (List ArticlesByCountry)

instance : DecidableEq (String × DigestDataType) := instDecidableEqProd

/-- The React component state of src/app/page.tsx that the specified
operations read and write. -/
structure ClientState where
  availableDates : List String
  loadingDates : Bool
  datesError : Option String
  digest : Option DigestDataType
  loadingDigest : Bool
  digestError : Option String
  currentDate : Option String
  activeTab : String
  digestCache : List (String × DigestDataType)
  direction : Int
deriving DecidableEq, Repr

/-- JS `Array.prototype.indexOf`: index of the first occurrence, `-1` if
absent. -/
def jsIndexOf : List String → String → Int
  | [], _ => -1
  | x :: xs, d =>
      if x = d then 0
      else
        let r := jsIndexOf xs d
        if r = -1 then -1 else r + 1

/-- `isPreviousDayNavigationDisabled` (src/app/page.tsx lines 69-73): true when
no current date, no available dates, or the current date string equals
`availableDates[0]`. -/
def isPreviousDayNavigationDisabled (s : ClientState) : Bool :=
  match s.currentDate with
  | none => true
  | some d =>
      if s.availableDates.length = 0 then true
      else d = s.availableDates.getD 0 ""

/-- `isNextDayNavigationDisabled` (src/app/page.tsx lines 75-79): true when no
current date, no available dates, or the current date string equals
`availableDates[availableDates.length - 1]`. -/
def isNextDayNavigationDisabled (s : ClientState) : Bool :=
  match s.currentDate with
  | none => true
  | some d =>
      if s.availableDates.length = 0 then true
      else d = s.availableDates.getD (s.availableDates.length - 1) ""

/-- `goToPreviousDay` (src/app/page.tsx lines 82-89): no-op unless navigation
is enabled; then moves the current date to `availableDates[indexOf(d) - 1]`
when `indexOf(d) > 0`. -/
def goToPreviousDay (s : ClientState) : ClientState :=
  match s.currentDate with
  | none => s
  | some d =>
      if isPreviousDayNavigationDisabled s then s
      else
        let currentIndex := jsIndexOf s.availableDates d
        if 0 < currentIndex then
          { s with currentDate := some (s.availableDates.getD (currentIndex - 1).toNat "") }
        else s

/-- `goToNextDay` (src/app/page.tsx lines 92-99): no-op unless navigation is
enabled; then moves the current date to `availableDates[indexOf(d) + 1]` when
`indexOf(d) < availableDates.length - 1`. -/
def goToNextDay (s : ClientState) : ClientState :=
  match s.currentDate with
  | none => s
  | some d =>
      if isNextDayNavigationDisabled s then s
      else
        let currentIndex := jsIndexOf s.availableDates d
        if currentIndex < (s.availableDates.length : Int) - 1 then
          { s with currentDate := some (s.availableDates.getD (currentIndex + 1).toNat "") }
        else s

/-- Helper for JS `String.prototype.includes` on character lists. -/
def hasSubListChar (needle : List Char) : List Char → Bool
  | [] => needle.isEmpty
  | c :: rest => needle.isPrefixOf (c :: rest) || hasSubListChar needle rest

/-- JS `hay.includes(needle)` for strings. -/
def strIncludes (hay needle : String) : Bool :=
  hasSubListChar needle.data hay.data

/-- The regex `^\d{4}-\d{2}-\d{2}$` used both by the proxy route
(src/unnamed/part_002 line 13) and the dates validation
(src/app/page.tsx line 223). -/
def matchesDatePattern (s : String) : Bool :=
  match s.data with
  | [y1, y2, y3, y4, h1, m1, m2, h2, d1, d2] =>
      y1.isDigit && y2.isDigit && y3.isDigit && y4.isDigit && h1 == '-' &&
      m1.isDigit && m2.isDigit && h2 == '-' && d1.isDigit && d2.isDigit
  | _ => false

/-- `getAvailableCountries` (src/app/page.tsx lines 101-113): scan
`digest[0]`'s buckets, pushing each key not already collected. Returns `[]`
when the digest is unset or its outer array is empty (`!digest || !digest[0]`). -/
def getAvailableCountries (digest : Option DigestDataType) : List String :=
  match digest with
  | none => []
  | some [] => []
  | some (buckets :: _) =>
      buckets.foldl
        (fun countries bucket =>
          bucket.foldl
            (fun cs kv => if cs.contains kv.1 then cs else cs ++ [kv.1])
            countries)
        []

/-- Modelled from the spec wording of TabController: first-seen-order
deduplication of a key sequence, used to compare against
`getAvailableCountries`. -/
def dedupKeepFirst (l : List String) : List String :=
  l.foldl (fun acc k => if acc.contains k then acc else acc ++ [k]) []

/-- The keys of the Digest's CategoryBucket sequence (`digest[0]`), in bucket
order then key-insertion order. -/
def digestKeys (digest : Option DigestDataType) : List String :=
  match digest with
  | none => []
  | some [] => []
  | some (buckets :: _) => (buckets.map (fun bucket => bucket.map Prod.fst)).flatten

/-- The activeTab-reconciliation effect (src/app/page.tsx lines 282-298): when
categories exist, reset to the first one if `activeTab` is falsy (empty) or no
longer present (also zeroing the animation direction); when none exist, clear
a non-empty `activeTab`. -/
def reconcileActiveTab (s : ClientState) : ClientState :=
  let countries := getAvailableCountries s.digest
  if 0 < countries.length then
    if s.activeTab = "" ∨ ¬ countries.contains s.activeTab then
      { s with direction := 0, activeTab := countries.getD 0 "" }
    else s
  else
    if s.activeTab ≠ "" then { s with activeTab := "" } else s

/-- `changeTab` (src/app/page.tsx lines 262-268): no-op when the requested
code is absent (`indexOf = -1`) or its index equals the current one;
otherwise record direction (+1 when moving right, -1 when moving left) and
activate the new code. -/
def changeTab (s : ClientState) (newTabCode : String) : ClientState :=
  let countries := getAvailableCountries s.digest
  let currentIdx := jsIndexOf countries s.activeTab
  let newIdx := jsIndexOf countries newTabCode
  if newIdx = -1 ∨ newIdx = currentIdx then s
  else
    { s with direction := if currentIdx < newIdx then 1 else -1,
             activeTab := newTabCode }

/-- Property read on the JS object `digestCache` (`digestCache[dateString]`). -/
def cacheLookup (cache : List (String × DigestDataType)) (k : String) :
    Option DigestDataType :=
  (cache.find? (fun e => e.1 == k)).map Prod.snd

/-- The functional cache update `{...prevCache, [dateString]: data}`
(src/app/page.tsx lines 176-179): an existing key keeps its position and is
overwritten; a new key is appended. -/
def cacheInsert (cache : List (String × DigestDataType)) (k : String)
    (v : DigestDataType) : List (String × DigestDataType) :=
  if (cache.find? (fun e => e.1 == k)).isSome then
    cache.map (fun e => if e.1 == k then (k, v) else e)
  else cache ++ [(k, v)]

/-- Outcome of the one network interaction a cache-missing `fetchDigest` call
performs. `okResp none parseMsg` is a 2xx response whose body fails JSON
parsing (the `response.json()` await rejects with a SyntaxError carrying
`parseMsg`); `errResp` is a non-2xx response whose parsed error body has a
truthy string `error` field (`errorField = some _`) or not (`none`, covering
an absent/empty field and an unparseable body, both of which fall back to the
generic message); `fetchThrow` is a rejection of the `fetch` await itself,
with `timedOut` standing for `controller.signal.aborted &&
controller.signal.reason === "timeout"`. -/
inductive DigestNetOutcome where
  | okResp (data : Option DigestDataType) (parseMsg : String)
  | errResp (status : Nat) (statusText : String) (errorField : Option String)
  | fetchThrow (isError : Bool) (name msg : String) (timedOut : Bool)
deriving DecidableEq, Repr

/-- The catch block of `fetchDigest` (src/app/page.tsx lines 180-193), as a
function from the thrown value's shape to the user-facing message. -/
def digestCatchMessage (isError : Bool) (name msg : String) (timedOut : Bool) :
    String :=
  if isError then
    if name = "AbortError" ∨ timedOut then
      "Request timed out. Please check your internet connection and try again."
    else if strIncludes msg "Failed to fetch" then
      "Network error. Please check your internet connection."
    else "Failed to load digest: " ++ msg
  else "An unexpected error occurred. Please try again."

/-- `fetchDigest` (src/app/page.tsx lines 140-197). Returns the new state and
whether a network request was issued. On a cache hit it returns the cached
payload, clears any previous digest error and skips the network entirely; on
a miss it performs the request described by `net` and stores a successful
payload in the cache. -/
def fetchDigest (s : ClientState) (dateString : String) (net : DigestNetOutcome) :
    ClientState × Bool :=
  match cacheLookup s.digestCache dateString with
  | some cached =>
      ({ s with digest := some cached, digestError := none, loadingDigest := false },
       false)
  | none =>
      let s1 := { s with loadingDigest := true, digestError := none }
      let s2 :=
        match net with
        | .okResp (some data) _ =>
            { s1 with digest := some data,
                      digestCache := cacheInsert s1.digestCache dateString data }
        | .okResp none parseMsg =>
            let m := digestCatchMessage true "SyntaxError" parseMsg false
            { s1 with digestError := some m }
        | .errResp status statusText errorField =>
            let fallback := "Failed to fetch digest: " ++ toString status ++ " " ++ statusText
            let m := digestCatchMessage true "Error" (errorField.getD fallback) false
            { s1 with digestError := some m }
        | .fetchThrow isError name msg timedOut =>
            let m := digestCatchMessage isError name msg timedOut
            { s1 with digestError := some m }
      ({ s2 with loadingDigest := false }, true)

/-- A JSON value, as far as the dates validation and the proxy passthrough
inspect one. Objects are association lists in key order; `other` covers
numbers, booleans and null. -/
inductive JsonVal where
  | str : String → JsonVal
  | arr : List JsonVal → JsonVal
  | obj : List (String × JsonVal) → JsonVal
  | other : JsonVal

/-- The validation `Array.isArray(dates) && dates.every(d => typeof d ===
'string' && /^\d{4}-\d{2}-\d{2}$/.test(d))` (src/app/page.tsx line 223). -/
def isValidDatesPayload : JsonVal → Bool
  | .arr items => items.all (fun item =>
      match item with
      | .str s => matchesDatePattern s
      | _ => false)
  | _ => false

/-- The string list a valid dates payload denotes (only meaningful when
`isValidDatesPayload` holds, in which case every item is a string). -/
def extractDates : JsonVal → List String
  | .arr items => items.map (fun item => match item with | .str s => s | _ => "")
  | _ => []

/-- Lexicographic comparison of character lists by code point: the order
`a.localeCompare(b)` induces on the ASCII digit/hyphen strings at hand. -/
def charListLe : List Char → List Char → Bool
  | [], _ => true
  | _ :: _, [] => false
  | a :: as, b :: bs => if a = b then charListLe as bs else decide (a < b)

/-- `a.localeCompare(b) <= 0` for the strings at hand: lexicographic
code-point comparison. -/
def dateStrLe (a b : String) : Bool := charListLe a.data b.data

/-- `dateStrLe` as a decidable relation, for use with `List.insertionSort`. -/
def dateLe (a b : String) : Prop := dateStrLe a b = true

instance : DecidableRel dateLe := fun a b => instDecidableEqBool (dateStrLe a b) true

/-- `dates.sort((a, b) => a.localeCompare(b))` (src/app/page.tsx line 227).
`localeCompare` on these strings is lexicographic code-point comparison
(`dateLe`); that order is total and antisymmetric, so the sorted permutation
is unique and an insertion sort by `dateLe` models the JS sort exactly. -/
def sortDatesAscending (dates : List String) : List String :=
  dates.insertionSort dateLe

/-- Outcome of the network interaction of `fetchAvailableDates`; constructors
read as in `DigestNetOutcome`, with the 2xx body kept as a `JsonVal` so the
array-of-date-strings validation can run on it. -/
inductive DatesNetOutcome where
  | okResp (body : Option JsonVal) (parseMsg : String)
  | errResp (status : Nat) (statusText : String) (errorField : Option String)
  | fetchThrow (isError : Bool) (name msg : String) (timedOut : Bool)

/-- The catch block of `fetchAvailableDates` (src/app/page.tsx lines 235-245). -/
def datesCatchMessage (isError : Bool) (name msg : String) (timedOut : Bool) :
    String :=
  if isError then
    if name = "AbortError" ∨ timedOut then
      "Request for available dates timed out."
    else "Failed to load available dates: " ++ msg
  else "An unexpected error occurred while fetching dates."

/-- `fetchAvailableDates` (src/app/page.tsx lines 206-249): on a valid 2xx
payload, sort the dates ascending, store them and select the last one (or
report the distinguished no-dates message when empty); on an invalid payload,
throw-and-catch `Error("Invalid date format received from API.")`; map other
failures through the catch block. -/
def fetchAvailableDates (s : ClientState) (net : DatesNetOutcome) : ClientState :=
  let s1 := { s with loadingDates := true, datesError := none }
  let s2 :=
    match net with
    | .okResp (some body) _ =>
        if isValidDatesPayload body then
          let sorted := sortDatesAscending (extractDates body)
          let s' := { s1 with availableDates := sorted }
          if 0 < sorted.length then
            { s' with currentDate := some (sorted.getD (sorted.length - 1) "") }
          else
            { s' with datesError := some "No dates available from the source." }
        else
          let m := datesCatchMessage true "Error" "Invalid date format received from API." false
          { s1 with datesError := some m }
    | .okResp none parseMsg =>
        let m := datesCatchMessage true "SyntaxError" parseMsg false
        { s1 with datesError := some m }
    | .errResp status statusText errorField =>
        let errMsg := errorField.getD
          ("Failed to fetch available dates: " ++ toString status ++ " " ++ statusText)
        { s1 with datesError := some (datesCatchMessage true "Error" errMsg false) }
    | .fetchThrow isError name msg timedOut =>
        { s1 with datesError := some (datesCatchMessage isError name msg timedOut) }
  { s2 with loadingDates := false }

/-- A response body built by the proxy route: `NextResponse.json({error: msg})`,
`NextResponse.json(data)`, or `new NextResponse(null)`. -/
inductive ProxyBody where
  | errorObj : String → ProxyBody
  | payload : JsonVal → ProxyBody
  | empty : ProxyBody

/-- A response of the proxy route: HTTP status, body, and the headers passed
explicitly to the `NextResponse` constructor (`[]` when none were). -/
structure ProxyResponse where
  status : Nat
  body : ProxyBody
  headers : List (String × String)

/-- The permissive CORS header set of src/unnamed/part_002 lines 41-45 and
76-80. -/
def corsHeaders : List (String × String) :=
  [("Access-Control-Allow-Origin", "*"),
   ("Access-Control-Allow-Methods", "GET"),
   ("Access-Control-Allow-Headers", "Content-Type")]

/-- Outcome of the proxy's upstream `fetch` (src/unnamed/part_002 lines
20-27): a 2xx response whose body parses (`resolvedOk (some data) _`) or does
not (`resolvedOk none parseMsg`, the `response.json()` await rejecting with a
SyntaxError carrying `parseMsg`); a non-2xx response; or a rejection of the
`fetch` await itself (`AbortSignal.timeout(10000)` elapsing rejects with a
DOMException named "TimeoutError"). -/
inductive UpstreamOutcome where
  | resolvedOk (data : Option JsonVal) (parseMsg : String)
  | resolvedErr (status : Nat) (statusText : String)
  | thrown (isError : Bool) (name msg : String)

/-- The catch block of the proxy's GET handler (src/unnamed/part_002 lines
47-69): 504 for a thrown Error named "TimeoutError", 503 for a TypeError
whose message mentions "fetch", 500 otherwise (including non-Error throws). -/
def proxyCatch (isError : Bool) (name msg : String) : ProxyResponse :=
  if isError ∧ name = "TimeoutError" then
    ⟨504, .errorObj "Request timeout - the external API took too long to respond", []⟩
  else if isError ∧ name = "TypeError" ∧ strIncludes msg "fetch" then
    ⟨503, .errorObj "Network error - unable to reach the external API", []⟩
  else
    ⟨500, .errorObj "Internal server error while fetching digest", []⟩

/-- The upstream URL interpolation (src/unnamed/part_002 line 18). -/
def apiUrl (base date : String) : String :=
  base ++ "/daily_digest?date=" ++ date

/-- The forwarding phase of the proxy's GET handler (src/unnamed/part_002
lines 18-46 plus its catch block): fetch the upstream URL, relay a non-2xx
status with a structured error body, return parsed 2xx data with CORS
headers, and map throws through `proxyCatch`. -/
def forwardToUpstream (base date : String)
    (upstream : String → UpstreamOutcome) : ProxyResponse :=
  match upstream (apiUrl base date) with
  | .resolvedOk (some data) _ => ⟨200, .payload data, corsHeaders⟩
  | .resolvedOk none parseMsg => proxyCatch true "SyntaxError" parseMsg
  | .resolvedErr status statusText =>
      ⟨status,
       .errorObj ("External API returned " ++ toString status ++ ": " ++ statusText),
       []⟩
  | .thrown isError name msg => proxyCatch isError name msg

/-- The proxy route's GET handler (src/unnamed/part_002 lines 3-70),
abstracted over the backend base URL (an environment variable there, a
hard-coded URL in src/unnamed/part_001) and the upstream's behavior. A
missing or empty `date` parameter (both falsy in JS) yields the 400
"required" response; a shape-invalid one yields the 400 "invalid format"
response; otherwise the request is forwarded. -/
def proxyGET (base : String) (dateParam : Option String)
    (upstream : String → UpstreamOutcome) : ProxyResponse :=
  match dateParam with
  | none => ⟨400, .errorObj "Date parameter is required", []⟩
  | some date =>
      if date = "" then ⟨400, .errorObj "Date parameter is required", []⟩
      else if matchesDatePattern date then forwardToUpstream base date upstream
      else ⟨400, .errorObj "Invalid date format. Use YYYY-MM-DD", []⟩

/-- The proxy route's OPTIONS handler (src/unnamed/part_002 lines 73-82). -/
def proxyOPTIONS : ProxyResponse :=
  ⟨200, .empty, corsHeaders⟩

def exampleCursorState : ClientState :=
  ⟨["2024-05-01", "2024-05-02", "2024-05-03"], false, none, none, false, none,
   some "2024-05-02", "ID", [], 0⟩

def exampleEmptyState : ClientState :=
  ⟨[], true, none, none, false, none, none, "ID", [], 0⟩

def exampleDigestPayload : DigestDataType :=
  [[[("ID", [⟨"s", "m", none⟩])], [("US", [])]]]

def exampleTabState : ClientState :=
  ⟨[], false, none, some [[[("A", [])], [("B", [])]]], false, none, none, "C", [], 0⟩

def exampleChangeTabState : ClientState :=
  ⟨[], false, none, some [[[("A", [])], [("B", [])]]], false, none, none, "A", [], 0⟩

theorem charListLe_total (as bs : List Char) :
    charListLe as bs = true ∨ charListLe bs as = true := by
  induction as generalizing bs with
  | nil => exact Or.inl rfl
  | cons a as ih =>
      cases bs with
      | nil => exact Or.inr rfl
      | cons b bs =>
          by_cases hab : a = b
          · subst hab
            unfold charListLe
            rw [if_pos rfl, if_pos rfl]
            exact ih bs
          · rcases lt_or_gt_of_ne hab with h | h
            · exact Or.inl (by unfold charListLe; rw [if_neg hab]; simpa using h)
            · exact Or.inr (by
                unfold charListLe
                rw [if_neg (Ne.symm hab)]
                simpa using h)

theorem charListLe_trans (as bs cs : List Char)
    (h1 : charListLe as bs = true) (h2 : charListLe bs cs = true) :
    charListLe as cs = true := by
  induction as generalizing bs cs with
  | nil => rfl
  | cons a as ih =>
      cases bs with
      | nil => exact absurd h1 (by simp [charListLe])
      | cons b bs =>
          cases cs with
          | nil => exact absurd h2 (by simp [charListLe])
          | cons c cs =>
              unfold charListLe at h1 h2 ⊢
              by_cases hab : a = b
              · subst hab
                rw [if_pos rfl] at h1
                by_cases hbc : a = c
                · subst hbc
                  rw [if_pos rfl] at h2 ⊢
                  exact ih bs cs h1 h2
                · rw [if_neg hbc] at h2 ⊢
                  exact h2
              · rw [if_neg hab] at h1
                have hlt1 : a < b := by simpa using h1
                by_cases hbc : b = c
                · subst hbc
                  rw [if_neg hab]
                  simpa using hlt1
                · rw [if_neg hbc] at h2
                  have hlt2 : b < c := by simpa using h2
                  have hac : a < c := lt_trans hlt1 hlt2
                  rw [if_neg (ne_of_lt hac)]
                  simpa using hac

theorem jsIndexOf_cons (x : String) (xs : List String) (d : String) :
    jsIndexOf (x :: xs) d =
      if x = d then 0
      else if jsIndexOf xs d = -1 then -1 else jsIndexOf xs d + 1 := rfl

theorem jsIndexOf_self_cons (x : String) (xs : List String) :
    jsIndexOf (x :: xs) x = 0 := by
  simp [jsIndexOf_cons]

theorem jsIndexOf_eq_of_getElem? {l : List String} {d : String} {i : Nat}
    (hn : l.Nodup) (hi : l[i]? = some d) : jsIndexOf l d = (i : Int) := by
  induction l generalizing i with
  | nil => simp at hi
  | cons x xs ih =>
      rcases List.nodup_cons.mp hn with ⟨hx, hxs⟩
      cases i with
      | zero =>
          simp only [List.getElem?_cons_zero, Option.some.injEq] at hi
          subst hi
          exact jsIndexOf_self_cons x xs
      | succ j =>
          simp only [List.getElem?_cons_succ] at hi
          have hmem : d ∈ xs := List.getElem?_mem hi
          have hne : x ≠ d := fun h => hx (h ▸ hmem)
          have hr : jsIndexOf xs d = (j : Int) := ih hxs hi
          rw [jsIndexOf_cons, if_neg hne, hr]
          have : (j : Int) ≠ -1 := by omega
          rw [if_neg this]
          push_cast
          ring

theorem prevDisabled_iff (s : ClientState) (d : String) (i : Nat)
    (hn : s.availableDates.Nodup)
    (hd : s.currentDate = some d)
    (hi : s.availableDates[i]? = some d) :
    isPreviousDayNavigationDisabled s = true ↔ i = 0 := by
  have hlen : i < s.availableDates.length := by
    rcases List.getElem?_eq_some.mp hi with ⟨h, _⟩; exact h
  have hne : s.availableDates.length ≠ 0 := by omega
  have h0 : s.availableDates[0]? = some (s.availableDates.getD 0 "") := by
    rw [List.getD_eq_getElem?_getD]
    rcases List.getElem?_eq_some.mp (List.getElem?_eq_getElem (by omega : 0 < s.availableDates.length)) with ⟨_, _⟩
    simp [List.getElem?_eq_getElem (by omega : 0 < s.availableDates.length)]
  unfold isPreviousDayNavigationDisabled
  rw [hd]
  simp only [hne, if_false, decide_eq_true_eq]
  constructor
  · intro hdd
    have := jsIndexOf_eq_of_getElem? hn hi
    have h2 := jsIndexOf_eq_of_getElem? hn (hdd ▸ h0)
    omega
  · intro h
    subst h
    have := List.getElem?_eq_some.mp hi
    rcases this with ⟨_, rfl⟩
    rw [List.getD_eq_getElem?_getD]
    simp [List.getElem?_eq_getElem hlen]

theorem nextDisabled_iff (s : ClientState) (d : String) (i : Nat)
    (hn : s.availableDates.Nodup)
    (hd : s.currentDate = some d)
    (hi : s.availableDates[i]? = some d) :
    isNextDayNavigationDisabled s = true ↔ i = s.availableDates.length - 1 := by
  have hlen : i < s.availableDates.length := by
    rcases List.getElem?_eq_some.mp hi with ⟨h, _⟩; exact h
  have hne : s.availableDates.length ≠ 0 := by omega
  have hlast : s.availableDates[s.availableDates.length - 1]? =
      some (s.availableDates.getD (s.availableDates.length - 1) "") := by
    rw [List.getD_eq_getElem?_getD]
    simp [List.getElem?_eq_getElem (by omega : s.availableDates.length - 1 < s.availableDates.length)]
  unfold isNextDayNavigationDisabled
  rw [hd]
  simp only [hne, if_false, decide_eq_true_eq]
  constructor
  · intro hdd
    have h1 := jsIndexOf_eq_of_getElem? hn hi
    have h2 := jsIndexOf_eq_of_getElem? hn (hdd ▸ hlast)
    omega
  · intro h
    subst h
    rcases List.getElem?_eq_some.mp hi with ⟨_, rfl⟩
    rw [List.getD_eq_getElem?_getD]
    simp [List.getElem?_eq_getElem hlen]

theorem goToPreviousDay_step (s : ClientState) (d : String) (i : Nat)
    (hn : s.availableDates.Nodup)
    (hd : s.currentDate = some d)
    (hi : s.availableDates[i]? = some d) (hpos : 0 < i) :
    goToPreviousDay s = { s with currentDate := s.availableDates[i - 1]? } := by
  have hlen : i < s.availableDates.length := by
    rcases List.getElem?_eq_some.mp hi with ⟨h, _⟩; exact h
  have hidx := jsIndexOf_eq_of_getElem? hn hi
  have hdis : isPreviousDayNavigationDisabled s = false := by
    cases h : isPreviousDayNavigationDisabled s
    · rfl
    · exact absurd ((prevDisabled_iff s d i hn hd hi).mp h) (by omega)
  have htn : ((i : Int) - 1).toNat = i - 1 := by omega
  have hcond : (0 : Int) < (i : Int) := by exact_mod_cast hpos
  unfold goToPreviousDay
  rw [hd]
  simp only [hdis, Bool.false_eq_true, if_false, hidx, hcond, if_true, htn]
  congr 1
  rw [List.getD_eq_getElem?_getD,
      List.getElem?_eq_getElem (by omega : i - 1 < s.availableDates.length)]
  rfl

theorem goToNextDay_step (s : ClientState) (d : String) (i : Nat)
    (hn : s.availableDates.Nodup)
    (hd : s.currentDate = some d)
    (hi : s.availableDates[i]? = some d)
    (hlt : i < s.availableDates.length - 1) :
    goToNextDay s = { s with currentDate := s.availableDates[i + 1]? } := by
  have hlen : i < s.availableDates.length := by
    rcases List.getElem?_eq_some.mp hi with ⟨h, _⟩; exact h
  have hidx := jsIndexOf_eq_of_getElem? hn hi
  have hdis : isNextDayNavigationDisabled s = false := by
    cases h : isNextDayNavigationDisabled s
    · rfl
    · exact absurd ((nextDisabled_iff s d i hn hd hi).mp h) (by omega)
  have htn : ((i : Int) + 1).toNat = i + 1 := by omega
  have hcond : (i : Int) < (s.availableDates.length : Int) - 1 := by omega
  unfold goToNextDay
  rw [hd]
  simp only [hdis, Bool.false_eq_true, if_false, hidx, hcond, if_true, htn]
  congr 1
  rw [List.getD_eq_getElem?_getD,
      List.getElem?_eq_getElem (by omega : i + 1 < s.availableDates.length)]
  rfl

theorem nav_noop_of_disabled_prev (s : ClientState)
    (h : isPreviousDayNavigationDisabled s = true) : goToPreviousDay s = s := by
  unfold goToPreviousDay
  cases hd : s.currentDate with
  | none => rfl
  | some d => simp [hd, h]

theorem nav_noop_of_disabled_next (s : ClientState)
    (h : isNextDayNavigationDisabled s = true) : goToNextDay s = s := by
  unfold goToNextDay
  cases hd : s.currentDate with
  | none => rfl
  | some d => simp [hd, h]

theorem nav_disabled_of_none (s : ClientState) (h : s.currentDate = none) :
    isPreviousDayNavigationDisabled s = true ∧ isNextDayNavigationDisabled s = true := by
  unfold isPreviousDayNavigationDisabled isNextDayNavigationDisabled
  rw [h]
  exact ⟨rfl, rfl⟩

theorem nav_disabled_of_empty (s : ClientState) (h : s.availableDates = []) :
    isPreviousDayNavigationDisabled s = true ∧ isNextDayNavigationDisabled s = true := by
  unfold isPreviousDayNavigationDisabled isNextDayNavigationDisabled
  cases hd : s.currentDate with
  | none => exact ⟨rfl, rfl⟩
  | some d => simp [h]

/-- Claim C1: for every loaded AvailableDates list (deduplicated, per the
AvailableDates invariant) and every current date `d` in it at index `i`,
`goToPreviousDay` moves the current date to the immediately preceding element
and `goToNextDay` to the immediately following one; at the first
(respectively last) element the operation is a no-op and the corresponding
navigation is reported disabled; and when the current date is unset or the
list is empty, both operations are no-ops and both directions report
disabled. -/
theorem dateCursor_navigation (s : ClientState) (d : String) (i : Nat)
    (hn : s.availableDates.Nodup)
    (hd : s.currentDate = some d)
    (hi : s.availableDates[i]? = some d) :
    (0 < i → goToPreviousDay s = { s with currentDate := s.availableDates[i - 1]? }) ∧
    (i = 0 → goToPreviousDay s = s) ∧
    (isPreviousDayNavigationDisabled s = true ↔ i = 0) ∧
    (i < s.availableDates.length - 1 →
      goToNextDay s = { s with currentDate := s.availableDates[i + 1]? }) ∧
    (i = s.availableDates.length - 1 → goToNextDay s = s) ∧
    (isNextDayNavigationDisabled s = true ↔ i = s.availableDates.length - 1) ∧
    (∀ t : ClientState, t.currentDate = none ∨ t.availableDates = [] →
      goToPreviousDay t = t ∧ goToNextDay t = t ∧
      isPreviousDayNavigationDisabled t = true ∧ isNextDayNavigationDisabled t = true) := by
  refine ⟨?_, ?_, ?_, ?_, ?_, ?_, ?_⟩
  · exact fun h => goToPreviousDay_step s d i hn hd hi h
  · intro h
    exact nav_noop_of_disabled_prev s ((prevDisabled_iff s d i hn hd hi).mpr h)
  · exact prevDisabled_iff s d i hn hd hi
  · exact fun h => goToNextDay_step s d i hn hd hi h
  · intro h
    exact nav_noop_of_disabled_next s ((nextDisabled_iff s d i hn hd hi).mpr h)
  · exact nextDisabled_iff s d i hn hd hi
  · intro t ht
    rcases ht with h | h
    · have hb := nav_disabled_of_none t h
      exact ⟨nav_noop_of_disabled_prev t hb.1, nav_noop_of_disabled_next t hb.2, hb.1, hb.2⟩
    · have hb := nav_disabled_of_empty t h
      exact ⟨nav_noop_of_disabled_prev t hb.1, nav_noop_of_disabled_next t hb.2, hb.1, hb.2⟩


theorem dateCursor_navigation_witness :
    (goToPreviousDay exampleCursorState).currentDate = some "2024-05-01" ∧
    (goToNextDay exampleCursorState).currentDate = some "2024-05-03" := by
  have h := dateCursor_navigation exampleCursorState "2024-05-02" 1 (by decide) rfl (by decide)
  constructor
  · rw [h.1 (by decide)]
    rfl
  · rw [h.2.2.2.1 (by decide)]
    rfl

theorem matchesDatePattern_empty_false : matchesDatePattern "" = false := by decide

theorem matchesDatePattern_chars {s : String} (h : matchesDatePattern s = true) :
    ∀ c ∈ s.data, c.isDigit = true ∨ c = '-' := by
  unfold matchesDatePattern at h
  intro c hc
  rcases hd : s.data with _ | ⟨y1, _ | ⟨y2, _ | ⟨y3, _ | ⟨y4, _ | ⟨g1, _ | ⟨m1, _ | ⟨m2, _ | ⟨g2, _ | ⟨e1, _ | ⟨e2, _ | ⟨z, zs⟩⟩⟩⟩⟩⟩⟩⟩⟩⟩⟩
  all_goals rw [hd] at h
  any_goals exact Bool.noConfusion h
  replace h : (y1.isDigit && y2.isDigit && y3.isDigit && y4.isDigit && (g1 == '-') &&
      m1.isDigit && m2.isDigit && (g2 == '-') && e1.isDigit && e2.isDigit) = true := h
  simp only [Bool.and_eq_true, beq_iff_eq] at h
  obtain ⟨⟨⟨⟨⟨⟨⟨⟨⟨hy1, hy2⟩, hy3⟩, hy4⟩, hg1⟩, hm1⟩, hm2⟩, hg2⟩, he1⟩, he2⟩ := h
  rw [hd] at hc
  simp only [List.mem_cons, List.not_mem_nil, or_false] at hc
  rcases hc with rfl | rfl | rfl | rfl | rfl | rfl | rfl | rfl | rfl | rfl
  · exact Or.inl hy1
  · exact Or.inl hy2
  · exact Or.inl hy3
  · exact Or.inl hy4
  · exact Or.inr hg1
  · exact Or.inl hm1
  · exact Or.inl hm2
  · exact Or.inr hg2
  · exact Or.inl he1
  · exact Or.inl he2

theorem proxyCatch_headers (isError : Bool) (name msg : String) :
    (proxyCatch isError name msg).headers = [] := by
  unfold proxyCatch
  split
  · rfl
  · split
    · rfl
    · rfl

theorem proxyGET_some_eq (base d : String) (u : String → UpstreamOutcome) :
    proxyGET base (some d) u =
      if d = "" then ⟨400, .errorObj "Date parameter is required", []⟩
      else if matchesDatePattern d then forwardToUpstream base d u
      else ⟨400, .errorObj "Invalid date format. Use YYYY-MM-DD", []⟩ := rfl

theorem proxyGET_valid_forwards (base d : String) (u : String → UpstreamOutcome)
    (hm : matchesDatePattern d = true) :
    proxyGET base (some d) u = forwardToUpstream base d u := by
  have he : d ≠ "" := by
    intro he
    rw [he] at hm
    exact absurd hm (by decide)
  rw [proxyGET_some_eq, if_neg he, if_pos hm]

/-- Claim C2: the proxy GET handler answers a missing `date` query parameter
with HTTP 400 and body exactly `\x7b"error": "Date parameter is required"\x7d`;
a `date` not matching the `YYYY-MM-DD` pattern gets HTTP 400 with an error
body; a matching `date` is forwarded upstream. -/
theorem proxyRoute_rejects_bad_dates (base d : String)
    (u : String → UpstreamOutcome) :
    proxyGET base none u = ⟨400, .errorObj "Date parameter is required", []⟩ ∧
    (matchesDatePattern d = false →
      (proxyGET base (some d) u).status = 400 ∧
      ∃ msg, (proxyGET base (some d) u).body = ProxyBody.errorObj msg) ∧
    (matchesDatePattern d = true →
      proxyGET base (some d) u = forwardToUpstream base d u) := by
  refine ⟨rfl, ?_, proxyGET_valid_forwards base d u⟩
  intro h
  rw [proxyGET_some_eq]
  by_cases he : d = ""
  · rw [if_pos he]
    exact ⟨rfl, "Date parameter is required", rfl⟩
  · rw [if_neg he, if_neg (by simp [h])]
    exact ⟨rfl, "Invalid date format. Use YYYY-MM-DD", rfl⟩

theorem proxyRoute_rejects_bad_dates_witness :
    proxyGET "b" none (fun _ => .resolvedOk (some .other) "") =
      ⟨400, .errorObj "Date parameter is required", []⟩ ∧
    (proxyGET "b" (some "2024/01/01") (fun _ => .resolvedOk (some .other) "")).status = 400 := by
  have h := proxyRoute_rejects_bad_dates "b" "2024/01/01" (fun _ => .resolvedOk (some .other) "")
  exact ⟨h.1, (h.2.1 (by decide)).1⟩

theorem forwardToUpstream_eq (base d : String) (u : String → UpstreamOutcome) :
    forwardToUpstream base d u =
      match u (apiUrl base d) with
      | .resolvedOk (some data) _ => ⟨200, .payload data, corsHeaders⟩
      | .resolvedOk none parseMsg => proxyCatch true "SyntaxError" parseMsg
      | .resolvedErr st stext =>
          ⟨st, .errorObj ("External API returned " ++ toString st ++ ": " ++ stext), []⟩
      | .thrown isError name msg => proxyCatch isError name msg := rfl

theorem proxyCatch_timeout (msg : String) :
    proxyCatch true "TimeoutError" msg =
      ⟨504, .errorObj "Request timeout - the external API took too long to respond", []⟩ := by
  unfold proxyCatch
  rw [if_pos ⟨rfl, rfl⟩]

theorem proxyCatch_typeError (msg : String) (hf : strIncludes msg "fetch" = true) :
    proxyCatch true "TypeError" msg =
      ⟨503, .errorObj "Network error - unable to reach the external API", []⟩ := by
  unfold proxyCatch
  rw [if_neg (by simp), if_pos ⟨rfl, rfl, hf⟩]

theorem proxyCatch_other (isErr : Bool) (nm msg : String)
    (hnt : ¬(isErr = true ∧ nm = "TimeoutError"))
    (hnft : ¬(isErr = true ∧ nm = "TypeError" ∧ strIncludes msg "fetch" = true)) :
    proxyCatch isErr nm msg =
      ⟨500, .errorObj "Internal server error while fetching digest", []⟩ := by
  unfold proxyCatch
  rw [if_neg hnt, if_neg hnft]

/-- Claim C3: for a forwarded request, the proxy maps failure outcomes to
statuses: an upstream non-success status `st` is propagated as the same
status with a structured error body embedding the upstream status text; a
thrown TimeoutError (the 10-second `AbortSignal.timeout` elapsing) yields
504; a fetch TypeError (low-level network failure) yields 503; any other
throw yields 500 with a generic body. `proxyGET` is a total Lean function,
so every outcome produces a response: no failure escapes unhandled. -/
theorem proxyRoute_failure_mapping (base d : String) (st : Nat)
    (stext msg : String) (u : String → UpstreamOutcome)
    (hm : matchesDatePattern d = true) :
    (u (apiUrl base d) = .resolvedErr st stext →
      proxyGET base (some d) u =
        ⟨st, .errorObj ("External API returned " ++ toString st ++ ": " ++ stext), []⟩) ∧
    (u (apiUrl base d) = .thrown true "TimeoutError" msg →
      proxyGET base (some d) u =
        ⟨504, .errorObj "Request timeout - the external API took too long to respond", []⟩) ∧
    (strIncludes msg "fetch" = true →
      u (apiUrl base d) = .thrown true "TypeError" msg →
      proxyGET base (some d) u =
        ⟨503, .errorObj "Network error - unable to reach the external API", []⟩) ∧
    (∀ (isErr : Bool) (nm : String),
      u (apiUrl base d) = .thrown isErr nm msg →
      ¬(isErr = true ∧ nm = "TimeoutError") →
      ¬(isErr = true ∧ nm = "TypeError" ∧ strIncludes msg "fetch" = true) →
      proxyGET base (some d) u =
        ⟨500, .errorObj "Internal server error while fetching digest", []⟩) := by
  rw [proxyGET_valid_forwards base d u hm]
  refine ⟨?_, ?_, ?_, ?_⟩
  · intro hu
    rw [forwardToUpstream_eq, hu]
  · intro hu
    have h1 : forwardToUpstream base d u = proxyCatch true "TimeoutError" msg := by
      rw [forwardToUpstream_eq, hu]
    rw [h1]
    exact proxyCatch_timeout msg
  · intro hfetch hu
    have h1 : forwardToUpstream base d u = proxyCatch true "TypeError" msg := by
      rw [forwardToUpstream_eq, hu]
    rw [h1]
    exact proxyCatch_typeError msg hfetch
  · intro isErr nm hu hnt hnft
    have h1 : forwardToUpstream base d u = proxyCatch isErr nm msg := by
      rw [forwardToUpstream_eq, hu]
    rw [h1]
    exact proxyCatch_other isErr nm msg hnt hnft

theorem proxyRoute_failure_mapping_witness :
    proxyGET "b" (some "2024-01-02") (fun _ => .resolvedErr 503 "Service Unavailable") =
      ⟨503, .errorObj "External API returned 503: Service Unavailable", []⟩ := by
  have h := proxyRoute_failure_mapping "b" "2024-01-02" 503 "Service Unavailable" ""
    (fun _ => .resolvedErr 503 "Service Unavailable") (by decide)
  exact h.1 rfl

/-- Claim C4, counterexample: the claim says every proxy response carries the
permissive CORS headers, but the 400 response for a missing `date` parameter
is built without any headers, so it does not contain the
Access-Control-Allow-Origin header. -/
theorem proxyRoute_cors_counterexample :
    (proxyGET "b" none (fun _ => .resolvedOk (some .other) "")).status = 400 ∧
    ("Access-Control-Allow-Origin", "*") ∈ corsHeaders ∧
    ("Access-Control-Allow-Origin", "*") ∉
      (proxyGET "b" none (fun _ => .resolvedOk (some .other) "")).headers := by
  refine ⟨rfl, by decide, ?_⟩
  show ("Access-Control-Allow-Origin", "*") ∉ ([] : List (String × String))
  simp

/-- Claim C4, amended: only the successful upstream-data response and the
OPTIONS preflight handler (which answers 200) carry the permissive CORS
headers; the 400 validation responses, the propagated upstream-error
response and the 504/503/500 catch responses are built with no explicit
headers at all. -/
theorem proxyRoute_cors_actual (base dv dinv : String)
    (u : String → UpstreamOutcome) (data : JsonVal) (pm : String) (st : Nat)
    (stext msg : String)
    (hv : matchesDatePattern dv = true)
    (hinv : matchesDatePattern dinv = false) :
    (u (apiUrl base dv) = .resolvedOk (some data) pm →
      proxyGET base (some dv) u = ⟨200, .payload data, corsHeaders⟩) ∧
    proxyOPTIONS = ⟨200, .empty, corsHeaders⟩ ∧
    (proxyGET base none u).headers = [] ∧
    (proxyGET base (some dinv) u).headers = [] ∧
    (u (apiUrl base dv) = .resolvedErr st stext →
      (proxyGET base (some dv) u).headers = []) ∧
    (∀ (isErr : Bool) (nm : String), u (apiUrl base dv) = .thrown isErr nm msg →
      (proxyGET base (some dv) u).headers = []) := by
  refine ⟨?_, rfl, rfl, ?_, ?_, ?_⟩
  · intro hu
    rw [proxyGET_valid_forwards base dv u hv, forwardToUpstream_eq, hu]
  · rw [proxyGET_some_eq]
    by_cases he : dinv = ""
    · rw [if_pos he]
    · rw [if_neg he, if_neg (by simp [hinv])]
  · intro hu
    rw [proxyGET_valid_forwards base dv u hv, forwardToUpstream_eq, hu]
  · intro isErr nm hu
    rw [proxyGET_valid_forwards base dv u hv]
    have h1 : forwardToUpstream base dv u = proxyCatch isErr nm msg := by
      rw [forwardToUpstream_eq, hu]
    rw [h1]
    exact proxyCatch_headers isErr nm msg

theorem proxyRoute_cors_actual_witness :
    proxyGET "b" (some "2024-01-02") (fun _ => .resolvedOk (some .other) "") =
      ⟨200, .payload .other, corsHeaders⟩ ∧
    proxyOPTIONS = ⟨200, .empty, corsHeaders⟩ := by
  have h := proxyRoute_cors_actual "b" "2024-01-02" "nope"
    (fun _ => .resolvedOk (some .other) "") .other "" 500 "" ""
    (by decide) (by decide)
  exact ⟨h.1 rfl, h.2.1⟩

/-- Claim C10: the proxy's date validation is shape-only: every string
matching `^\d\x7b4\x7d-\d\x7b2\x7d-\d\x7b2\x7d$` — including
calendar-invalid ones such as "2024-13-99" and "0000-00-00" — is forwarded
upstream rather than rejected by validation, and every such accepted date
consists only of digits and hyphens when interpolated into the upstream
URL. -/
theorem proxyRoute_shape_only (base d : String) (u : String → UpstreamOutcome)
    (hm : matchesDatePattern d = true) :
    proxyGET base (some d) u = forwardToUpstream base d u ∧
    apiUrl base d = base ++ "/daily_digest?date=" ++ d ∧
    (∀ c ∈ d.data, c.isDigit = true ∨ c = '-') ∧
    matchesDatePattern "2024-13-99" = true ∧
    matchesDatePattern "0000-00-00" = true :=
  ⟨proxyGET_valid_forwards base d u hm, rfl, matchesDatePattern_chars hm,
   by decide, by decide⟩

theorem proxyRoute_shape_only_witness :
    matchesDatePattern "2024-13-99" = true ∧
    proxyGET "b" (some "2024-13-99") (fun _ => .resolvedOk (some .other) "") =
      forwardToUpstream "b" "2024-13-99" (fun _ => .resolvedOk (some .other) "") := by
  have h := proxyRoute_shape_only "b" "2024-13-99"
    (fun _ => .resolvedOk (some .other) "") (by decide)
  exact ⟨h.2.2.2.1, h.1⟩

theorem cacheLookup_nil (k : String) : cacheLookup [] k = none := rfl

theorem cacheLookup_cons (e : String × DigestDataType)
    (es : List (String × DigestDataType)) (k : String) :
    cacheLookup (e :: es) k = if e.1 == k then some e.2 else cacheLookup es k := by
  unfold cacheLookup
  rw [List.find?_cons]
  cases he : e.1 == k
  · simp [he]
  · simp [he]

theorem cacheInsert_cons_of_ne (e : String × DigestDataType)
    (es : List (String × DigestDataType)) (k : String) (v : DigestDataType)
    (he : (e.1 == k) = false) :
    cacheInsert (e :: es) k v = e :: cacheInsert es k v := by
  unfold cacheInsert
  rw [List.find?_cons, he]
  split
  · next h =>
      rw [List.map_cons, if_neg (by simp [he])]
  · next h =>
      rfl

theorem cacheLookup_cacheInsert_self (cache : List (String × DigestDataType))
    (k : String) (v : DigestDataType) :
    cacheLookup (cacheInsert cache k v) k = some v := by
  induction cache with
  | nil =>
      show cacheLookup [(k, v)] k = some v
      rw [cacheLookup_cons]
      simp
  | cons e es ih =>
      cases he : e.1 == k
      · rw [cacheInsert_cons_of_ne e es k v he, cacheLookup_cons, if_neg (by simp [he])]
        exact ih
      · unfold cacheInsert
        rw [List.find?_cons, he]
        split
        · next h =>
            rw [List.map_cons, if_pos he, cacheLookup_cons]
            simp
        · next h =>
            simp at h

theorem cacheLookup_map_replace (es : List (String × DigestDataType))
    (k : String) (v : DigestDataType) (q : String) (hne : q ≠ k) :
    cacheLookup (es.map (fun e => if e.1 == k then (k, v) else e)) q =
      cacheLookup es q := by
  induction es with
  | nil => rfl
  | cons e es ih =>
      rw [List.map_cons]
      by_cases he : (e.1 == k) = true
      · rw [if_pos he, cacheLookup_cons, cacheLookup_cons]
        have h1 : ((k, v).1 == q) = false := by simp [Ne.symm hne]
        have h2 : (e.1 == q) = false := by
          have h3 : e.1 = k := by simpa using he
          simp [h3, Ne.symm hne]
        rw [h1, h2]
        simp only [Bool.false_eq_true, if_false]
        exact ih
      · rw [if_neg he, cacheLookup_cons, cacheLookup_cons]
        cases he' : e.1 == q with
        | false =>
            simp only [Bool.false_eq_true, if_false]
            exact ih
        | true =>
            simp

theorem cacheLookup_append_single (es : List (String × DigestDataType))
    (k : String) (v : DigestDataType) (q : String) (hne : q ≠ k) :
    cacheLookup (es ++ [(k, v)]) q = cacheLookup es q := by
  induction es with
  | nil =>
      show cacheLookup [(k, v)] q = cacheLookup [] q
      rw [cacheLookup_cons]
      simp [Ne.symm hne]
  | cons e es ih =>
      rw [List.cons_append, cacheLookup_cons, cacheLookup_cons]
      cases he : e.1 == q with
      | false =>
          simp only [Bool.false_eq_true, if_false]
          exact ih
      | true =>
          simp

theorem cacheLookup_cacheInsert_other (cache : List (String × DigestDataType))
    (k : String) (v : DigestDataType) (q : String) (hne : q ≠ k) :
    cacheLookup (cacheInsert cache k v) q = cacheLookup cache q := by
  unfold cacheInsert
  split
  · exact cacheLookup_map_replace cache k v q hne
  · exact cacheLookup_append_single cache k v q hne

theorem fetchDigest_hit (t : ClientState) (d : String) (data : DigestDataType)
    (net : DigestNetOutcome) (hhit : cacheLookup t.digestCache d = some data) :
    fetchDigest t d net =
      ({ t with digest := some data, digestError := none, loadingDigest := false },
       false) := by
  unfold fetchDigest
  rw [hhit]

theorem fetchDigest_miss_success (s : ClientState) (d : String)
    (data : DigestDataType) (pm : String)
    (hmiss : cacheLookup s.digestCache d = none) :
    fetchDigest s d (.okResp (some data) pm) =
      ({ s with digest := some data, digestError := none, loadingDigest := false,
                digestCache := cacheInsert s.digestCache d data },
       true) := by
  unfold fetchDigest
  rw [hmiss]

/-- Claim C5: round-trip through the cache. After a successful digest fetch
for date `d` (a cache miss that issued a network call), the parsed payload is
stored in the returned state's cache under key `d` (entries for other keys
unchanged), and every subsequent `fetchDigest` for `d` from a state whose
cache holds that payload is served from the cache: it returns the stored
payload, clears the error flag, and issues no network call, whatever the
network would have done. -/
theorem digestCache_roundtrip (s : ClientState) (d : String)
    (data : DigestDataType) (pm : String)
    (hmiss : cacheLookup s.digestCache d = none) :
    ((fetchDigest s d (.okResp (some data) pm)).2 = true) ∧
    (fetchDigest s d (.okResp (some data) pm)).1.digest = some data ∧
    cacheLookup (fetchDigest s d (.okResp (some data) pm)).1.digestCache d = some data ∧
    (∀ q, q ≠ d →
      cacheLookup (fetchDigest s d (.okResp (some data) pm)).1.digestCache q =
        cacheLookup s.digestCache q) ∧
    (∀ (t : ClientState) (net : DigestNetOutcome),
      cacheLookup t.digestCache d = some data →
      fetchDigest t d net =
        ({ t with digest := some data, digestError := none, loadingDigest := false },
         false)) := by
  rw [fetchDigest_miss_success s d data pm hmiss]
  refine ⟨rfl, rfl, ?_, ?_, ?_⟩
  · exact cacheLookup_cacheInsert_self s.digestCache d data
  · intro q hq
    exact cacheLookup_cacheInsert_other s.digestCache d data q hq
  · intro t net hhit
    exact fetchDigest_hit t d data net hhit



theorem digestCache_roundtrip_witness :
    ((fetchDigest exampleEmptyState "2024-05-03"
        (.okResp (some exampleDigestPayload) "")).2 = true) ∧
    (fetchDigest
        (fetchDigest exampleEmptyState "2024-05-03"
          (.okResp (some exampleDigestPayload) "")).1 "2024-05-03"
        (.fetchThrow true "TypeError" "Failed to fetch" false)).2 = false ∧
    (fetchDigest
        (fetchDigest exampleEmptyState "2024-05-03"
          (.okResp (some exampleDigestPayload) "")).1 "2024-05-03"
        (.fetchThrow true "TypeError" "Failed to fetch" false)).1.digest =
      some exampleDigestPayload := by
  have h := digestCache_roundtrip exampleEmptyState "2024-05-03"
    exampleDigestPayload "" rfl
  refine ⟨h.1, ?_, ?_⟩
  · rw [h.2.2.2.2 _ (.fetchThrow true "TypeError" "Failed to fetch" false) h.2.2.1]
  · rw [h.2.2.2.2 _ (.fetchThrow true "TypeError" "Failed to fetch" false) h.2.2.1]

theorem countries_foldl_flatten (buckets : List ArticlesByCountry)
    (acc : List String) :
    buckets.foldl
      (fun countries bucket =>
        bucket.foldl
          (fun cs kv => if cs.contains kv.1 then cs else cs ++ [kv.1])
          countries)
      acc =
    ((buckets.map (fun bucket => bucket.map Prod.fst)).flatten).foldl
      (fun cs k => if cs.contains k then cs else cs ++ [k]) acc := by
  induction buckets generalizing acc with
  | nil => rfl
  | cons b bs ih =>
      rw [List.foldl_cons, List.map_cons, List.flatten_cons, List.foldl_append, ih,
          List.foldl_map]

theorem getAvailableCountries_eq_dedup (digest : Option DigestDataType) :
    getAvailableCountries digest = dedupKeepFirst (digestKeys digest) := by
  match digest with
  | none => rfl
  | some [] => rfl
  | some (buckets :: rest) =>
      unfold getAvailableCountries digestKeys dedupKeepFirst
      exact countries_foldl_flatten buckets []

theorem reconcileActiveTab_keeps (s : ClientState)
    (hne : s.activeTab ≠ "")
    (hmem : (getAvailableCountries s.digest).contains s.activeTab = true) :
    reconcileActiveTab s = s := by
  unfold reconcileActiveTab
  have hpos : 0 < (getAvailableCountries s.digest).length := by
    have : s.activeTab ∈ getAvailableCountries s.digest := by simpa using hmem
    exact List.length_pos.mpr (List.ne_nil_of_mem this)
  rw [if_pos hpos, if_neg]
  push_neg
  exact ⟨hne, by simpa using hmem⟩

theorem reconcileActiveTab_resets (s : ClientState) (c : String) (cs : List String)
    (hc : getAvailableCountries s.digest = c :: cs)
    (hnm : (getAvailableCountries s.digest).contains s.activeTab = false) :
    (reconcileActiveTab s).activeTab = c ∧ (reconcileActiveTab s).direction = 0 := by
  unfold reconcileActiveTab
  rw [hc] at hnm ⊢
  rw [if_pos (by simp)]
  rw [if_pos (Or.inr (by simp at hnm ⊢; exact hnm))]
  exact ⟨rfl, rfl⟩

theorem reconcileActiveTab_clears (s : ClientState)
    (hc : getAvailableCountries s.digest = []) :
    (reconcileActiveTab s).activeTab = "" := by
  unfold reconcileActiveTab
  rw [hc]
  rw [if_neg (by simp)]
  by_cases h : s.activeTab ≠ ""
  · rw [if_pos h]
  · rw [if_neg h]
    simpa using h

/-- Claim C6: the available category codes are exactly the first-seen-order
deduplicated keys of the Digest's CategoryBucket sequence; on reconciliation,
a non-empty active category still among the derived codes is kept (the state
is unchanged), an active category not among them is replaced by the first
derived code, and when no codes are derived the selection is cleared to the
empty string. -/
theorem tabController_selection (dig : Option DigestDataType) (s : ClientState) :
    getAvailableCountries dig = dedupKeepFirst (digestKeys dig) ∧
    (s.activeTab ≠ "" → (getAvailableCountries s.digest).contains s.activeTab = true →
      reconcileActiveTab s = s) ∧
    (∀ c cs, getAvailableCountries s.digest = c :: cs →
      (getAvailableCountries s.digest).contains s.activeTab = false →
      (reconcileActiveTab s).activeTab = c) ∧
    (getAvailableCountries s.digest = [] → (reconcileActiveTab s).activeTab = "") :=
  ⟨getAvailableCountries_eq_dedup dig,
   fun hne hmem => reconcileActiveTab_keeps s hne hmem,
   fun c cs hc hnm => (reconcileActiveTab_resets s c cs hc hnm).1,
   fun hc => reconcileActiveTab_clears s hc⟩


theorem tabController_selection_witness :
    (reconcileActiveTab exampleTabState).activeTab = "A" := by
  have h := tabController_selection (some [[[("A", [])], [("B", [])]]]) exampleTabState
  exact h.2.2.1 "A" ["B"] rfl rfl

theorem jsIndexOf_ge_neg_one (l : List String) (d : String) :
    -1 ≤ jsIndexOf l d := by
  induction l with
  | nil => simp [jsIndexOf]
  | cons x xs ih =>
      rw [jsIndexOf_cons]
      split
      · omega
      · split
        · omega
        · omega

theorem jsIndexOf_ne_neg_one_of_mem {l : List String} {d : String} (h : d ∈ l) :
    jsIndexOf l d ≠ -1 := by
  induction l with
  | nil => simp at h
  | cons x xs ih =>
      rw [jsIndexOf_cons]
      by_cases hx : x = d
      · rw [if_pos hx]
        omega
      · rw [if_neg hx]
        have hm : d ∈ xs := by
          rcases List.mem_cons.mp h with h1 | h1
          · exact absurd h1.symm hx
          · exact h1
        have := ih hm
        have hge := jsIndexOf_ge_neg_one xs d
        rw [if_neg this]
        omega

theorem jsIndexOf_eq_neg_one_of_not_mem {l : List String} {d : String}
    (h : d ∉ l) : jsIndexOf l d = -1 := by
  induction l with
  | nil => rfl
  | cons x xs ih =>
      rw [jsIndexOf_cons]
      have hx : x ≠ d := fun he => h (he ▸ List.mem_cons_self x xs)
      have hm : d ∉ xs := fun hm => h (List.mem_cons_of_mem x hm)
      rw [if_neg hx, if_pos (ih hm)]

theorem jsIndexOf_inj {l : List String} {a b : String}
    (h : jsIndexOf l a = jsIndexOf l b) (ha : jsIndexOf l a ≠ -1) : a = b := by
  induction l with
  | nil => exact absurd rfl ha
  | cons x xs ih =>
      rw [jsIndexOf_cons] at h ha
      rw [jsIndexOf_cons] at h
      by_cases hxa : x = a
      · by_cases hxb : x = b
        · exact hxa ▸ hxb
        · rw [if_pos hxa, if_neg hxb] at h
          by_cases hb1 : jsIndexOf xs b = -1
          · rw [if_pos hb1] at h
            omega
          · rw [if_neg hb1] at h
            have := jsIndexOf_ge_neg_one xs b
            omega
      · by_cases hxb : x = b
        · rw [if_neg hxa, if_pos hxb] at h
          by_cases ha1 : jsIndexOf xs a = -1
          · rw [if_pos ha1] at h
            omega
          · rw [if_neg ha1] at h
            have := jsIndexOf_ge_neg_one xs a
            omega
        · rw [if_neg hxa, if_neg hxb] at h
          rw [if_neg hxa] at ha
          by_cases ha1 : jsIndexOf xs a = -1
          · rw [if_pos ha1] at ha
            exact absurd rfl ha
          · rw [if_neg ha1] at h ha
            by_cases hb1 : jsIndexOf xs b = -1
            · rw [if_pos hb1] at h
              have := jsIndexOf_ge_neg_one xs a
              omega
            · rw [if_neg hb1] at h
              exact ih (by omega) ha1

/-- Claim C9: `changeTab c` is a no-op when `c` is not among the derived
available codes or is already the active category; otherwise (both codes
present and distinct) it activates `c` and sets the direction to +1 when
`c`'s position is after the previously active category's position and to -1
when it is before. -/
theorem tabController_changeTab (s : ClientState) (c : String) :
    ((getAvailableCountries s.digest).contains c = false → changeTab s c = s) ∧
    (c = s.activeTab → changeTab s c = s) ∧
    ((getAvailableCountries s.digest).contains c = true →
     (getAvailableCountries s.digest).contains s.activeTab = true →
     c ≠ s.activeTab →
      changeTab s c =
        { s with activeTab := c,
                 direction :=
                   if jsIndexOf (getAvailableCountries s.digest) s.activeTab <
                      jsIndexOf (getAvailableCountries s.digest) c then 1 else -1 }) := by
  refine ⟨?_, ?_, ?_⟩
  · intro h
    unfold changeTab
    rw [if_pos (Or.inl (jsIndexOf_eq_neg_one_of_not_mem (by simpa using h)))]
  · intro h
    unfold changeTab
    rw [if_pos (Or.inr (by rw [h]))]
  · intro hc ha hne
    unfold changeTab
    have hcm : c ∈ getAvailableCountries s.digest := by simpa using hc
    have h1 : jsIndexOf (getAvailableCountries s.digest) c ≠ -1 :=
      jsIndexOf_ne_neg_one_of_mem hcm
    have h2 : jsIndexOf (getAvailableCountries s.digest) c ≠
        jsIndexOf (getAvailableCountries s.digest) s.activeTab := by
      intro he
      exact hne (jsIndexOf_inj he h1)
    rw [if_neg (not_or.mpr ⟨h1, h2⟩)]


theorem tabController_changeTab_witness :
    (changeTab exampleChangeTabState "B").activeTab = "B" ∧
    (changeTab exampleChangeTabState "B").direction = 1 := by
  have h := tabController_changeTab exampleChangeTabState "B"
  rw [h.2.2 rfl rfl (by decide)]
  exact ⟨rfl, by decide⟩

theorem fetchAvailableDates_valid_eq (s : ClientState) (j : JsonVal) (pm : String)
    (hv : isValidDatesPayload j = true) :
    fetchAvailableDates s (.okResp (some j) pm) =
      if 0 < (sortDatesAscending (extractDates j)).length then
        { s with loadingDates := false, datesError := none,
                 availableDates := sortDatesAscending (extractDates j),
                 currentDate := some ((sortDatesAscending (extractDates j)).getD
                   ((sortDatesAscending (extractDates j)).length - 1) "") }
      else
        { s with loadingDates := false,
                 datesError := some "No dates available from the source.",
                 availableDates := sortDatesAscending (extractDates j) } := by
  simp only [fetchAvailableDates]
  rw [if_pos hv]
  split
  · rfl
  · rfl

/-- Claim C7: after a successful AvailableDates load, the stored list is the
input sorted ascending by lexical (code-point) string comparison, and when it
is non-empty the current date is initialized to its last entry, at which
point next-day navigation is disabled. -/
theorem availableDates_load_success (s : ClientState) (j : JsonVal) (pm : String)
    (hv : isValidDatesPayload j = true) :
    (fetchAvailableDates s (.okResp (some j) pm)).availableDates =
      sortDatesAscending (extractDates j) ∧
    List.Sorted dateLe (fetchAvailableDates s (.okResp (some j) pm)).availableDates ∧
    ((fetchAvailableDates s (.okResp (some j) pm)).availableDates ≠ [] →
      (fetchAvailableDates s (.okResp (some j) pm)).currentDate =
        (fetchAvailableDates s (.okResp (some j) pm)).availableDates.getLast? ∧
      isNextDayNavigationDisabled (fetchAvailableDates s (.okResp (some j) pm)) = true) := by
  rw [fetchAvailableDates_valid_eq s j pm hv]
  by_cases h : 0 < (sortDatesAscending (extractDates j)).length
  · rw [if_pos h]
    haveI : IsTotal String dateLe := ⟨fun a b => charListLe_total a.data b.data⟩
    haveI : IsTrans String dateLe := ⟨fun a b c h1 h2 => charListLe_trans a.data b.data c.data h1 h2⟩
    refine ⟨rfl, List.sorted_insertionSort dateLe (extractDates j), ?_⟩
    intro _
    constructor
    · show some ((sortDatesAscending (extractDates j)).getD
        ((sortDatesAscending (extractDates j)).length - 1) "") = _
      rw [List.getLast?_eq_getElem?, List.getD_eq_getElem?_getD,
          List.getElem?_eq_getElem (by omega)]
      rfl
    · show isNextDayNavigationDisabled _ = true
      unfold isNextDayNavigationDisabled
      simp only []
      rw [if_neg (by omega)]
      simp
  · rw [if_neg h]
    haveI : IsTotal String dateLe := ⟨fun a b => charListLe_total a.data b.data⟩
    haveI : IsTrans String dateLe := ⟨fun a b c h1 h2 => charListLe_trans a.data b.data c.data h1 h2⟩
    refine ⟨rfl, List.sorted_insertionSort dateLe (extractDates j), ?_⟩
    intro hne
    exact absurd (List.length_pos.mpr hne) h

theorem availableDates_load_success_witness :
    (fetchAvailableDates exampleEmptyState
        (.okResp (some (.arr [.str "2024-05-01", .str "2024-05-02", .str "2024-05-03"])) "")).availableDates =
      ["2024-05-01", "2024-05-02", "2024-05-03"] ∧
    (fetchAvailableDates exampleEmptyState
        (.okResp (some (.arr [.str "2024-05-01", .str "2024-05-02", .str "2024-05-03"])) "")).currentDate =
      some "2024-05-03" ∧
    isNextDayNavigationDisabled (fetchAvailableDates exampleEmptyState
        (.okResp (some (.arr [.str "2024-05-01", .str "2024-05-02", .str "2024-05-03"])) "")) = true ∧
    (goToPreviousDay (fetchAvailableDates exampleEmptyState
        (.okResp (some (.arr [.str "2024-05-01", .str "2024-05-02", .str "2024-05-03"])) ""))).currentDate =
      some "2024-05-02" := by
  have h := availableDates_load_success exampleEmptyState
    (.arr [.str "2024-05-01", .str "2024-05-02", .str "2024-05-03"]) "" (by decide)
  have h3 := h.2.2 (by rw [h.1]; decide)
  refine ⟨by rw [h.1]; rfl, ?_, h3.2, by decide⟩
  rw [h3.1, h.1]
  rfl

/-- Claim C8: when the dates endpoint's 2xx payload is not an array of
strings each matching the `YYYY-MM-DD` pattern, the load fails with the
validation error message and mutates nothing beyond the error and loading
flags: AvailableDates, the current date and every other field are left
unchanged. -/
theorem availableDates_validation_failure (s : ClientState) (j : JsonVal)
    (pm : String) (hv : isValidDatesPayload j = false) :
    fetchAvailableDates s (.okResp (some j) pm) =
      { s with loadingDates := false,
               datesError := some "Failed to load available dates: Invalid date format received from API." } := by
  simp only [fetchAvailableDates]
  rw [if_neg (by simp [hv])]
  rfl

theorem availableDates_validation_failure_witness :
    fetchAvailableDates exampleCursorState
        (.okResp (some (.arr [.str "2024-01-01", .str "bad-date"])) "") =
      { exampleCursorState with
          loadingDates := false,
          datesError := some "Failed to load available dates: Invalid date format received from API." } ∧
    (fetchAvailableDates exampleCursorState
        (.okResp (some (.arr [.str "2024-01-01", .str "bad-date"])) "")).availableDates =
      ["2024-05-01", "2024-05-02", "2024-05-03"] ∧
    (fetchAvailableDates exampleCursorState
        (.okResp (some (.arr [.str "2024-01-01", .str "bad-date"])) "")).currentDate =
      some "2024-05-02" := by
  have h := availableDates_validation_failure exampleCursorState
    (.arr [.str "2024-01-01", .str "bad-date"]) "" (by decide)
  exact ⟨h, by rw [h]; rfl, by rw [h]; rfl⟩
